import Mathlib

/-!
Shallow embedding of `pylearn2/train_extensions/twitter_monitoring.py`.

Strings are modelled as `List Char` (Python `str`), machine floats for the
monitored values as `Rat` (all claims use exactly representable values),
the Twitter transport as an oracle function from requests to either a raised
exception (`Except.error`) or a response object, and every externally visible
effect (API calls, log records) as an explicit trace.
-/

/-- STATUS_MSG_MAX_LEN from the source (line 22). -/
def STATUS_MSG_MAX_LEN : Nat := 140

/-- The continuation string `' [...] '` of `tweet_status` (line 63). -/
def continuationString : List Char := " [...] ".toList

/-- Fuel-based core of `_chunk_string` (lines 145-147):
`(string[0+i:length+i] for i in range(0, len(string), length))` with chunk
size `n+1`.  The fuel only drives the recursion; with `fuel ≥ l.length` it is
never exhausted, because every step consumes at least one character. -/
def chunkAux (n : Nat) : Nat → List Char → List (List Char)
  | _, [] => []
  | 0, _ :: _ => []
  | fuel + 1, c :: rest =>
    ((c :: rest).take (n + 1)) :: chunkAux n fuel ((c :: rest).drop (n + 1))

/-- `_chunk_string(string, length)` for a positive `length` (the source always
calls it with `length = 126`): pieces of size `n`, in order. -/
def chunkString (s : List Char) (n : Nat) : List (List Char) :=
  chunkAux (n - 1) s.length s

/-- One step of the marker-attachment loop of `tweet_status` (lines 68-75):
chunk `k` of `total` gets the continuation string appended (k = 0),
prepended (k = total-1), or both (interior). -/
def markAux (m : List Char) (total : Nat) : Nat → List (List Char) → List (List Char)
  | _, [] => []
  | k, c :: rest =>
    (if k = 0 then c ++ m
     else if k = total - 1 then m ++ c
     else m ++ c ++ m) :: markAux m total (k + 1) rest

/-- The chunk sequence `status_msg_chunks` that `tweet_status` builds
(lines 63-75): split at `STATUS_MSG_MAX_LEN - 2*len(continuation_string)`
= 126, then attach continuation strings when there is more than one chunk. -/
def tweetStatusChunks (s : List Char) : List (List Char) :=
  let cs := chunkString s (STATUS_MSG_MAX_LEN - 2 * continuationString.length)
  if 1 < cs.length then markAux continuationString cs.length 0 cs else cs

/-- Remove `k` characters from the right end of a list. -/
def dropRight (l : List Char) (k : Nat) : List Char :=
  l.take (l.length - k)

/-- Positional inverse of `markAux`: chunk 0 loses the trailing marker, the
last chunk loses the leading marker, interior chunks lose both. -/
def stripAux (m : List Char) (total : Nat) : Nat → List (List Char) → List (List Char)
  | _, [] => []
  | k, c :: rest =>
    (if k = 0 then dropRight c m.length
     else if k = total - 1 then c.drop m.length
     else dropRight (c.drop m.length) m.length) :: stripAux m total (k + 1) rest

/-- Strip the continuation markers from a marked chunk sequence (identity when
there was only one chunk, since `tweet_status` adds no marker then). -/
def stripStatus (l : List (List Char)) : List (List Char) :=
  if 1 < l.length then stripAux continuationString l.length 0 l else l

/- ### Basic lemmas about the splitter -/

lemma chunkAux_nil (n : Nat) : ∀ fuel, chunkAux n fuel [] = [] := by
  intro fuel; cases fuel <;> rfl

lemma chunkAux_join (n : Nat) :
    ∀ fuel l, l.length ≤ fuel → (chunkAux n fuel l).flatten = l := by
  intro fuel
  induction fuel with
  | zero =>
    intro l hl
    cases l with
    | nil => rfl
    | cons c rest => simp at hl
  | succ fuel ih =>
    intro l hl
    cases l with
    | nil => rfl
    | cons c rest =>
      have hdrop : ((c :: rest).drop (n + 1)).length ≤ fuel := by
        simp only [List.length_drop, List.length_cons] at *
        omega
      simp only [chunkAux, List.flatten_cons, ih _ hdrop, List.take_append_drop]

lemma chunkAux_mem_len (n : Nat) :
    ∀ fuel l c, c ∈ chunkAux n fuel l → c.length ≤ n + 1 := by
  intro fuel
  induction fuel with
  | zero =>
    intro l c hc
    cases l with
    | nil => simp [chunkAux] at hc
    | cons a rest => simp [chunkAux] at hc
  | succ fuel ih =>
    intro l c hc
    cases l with
    | nil => simp [chunkAux] at hc
    | cons a rest =>
      simp only [chunkAux, List.mem_cons] at hc
      rcases hc with hc | hc
      · subst hc
        simp [Nat.min_le_left]
      · exact ih _ _ hc

lemma chunkAux_small (n : Nat) :
    ∀ fuel l, l ≠ [] → l.length ≤ n + 1 → l.length ≤ fuel →
      chunkAux n fuel l = [l] := by
  intro fuel
  cases fuel with
  | zero =>
    intro l hne hlen hfuel
    cases l with
    | nil => exact absurd rfl hne
    | cons a rest => simp at hfuel
  | succ fuel =>
    intro l hne hlen hfuel
    cases l with
    | nil => exact absurd rfl hne
    | cons a rest =>
      simp only [chunkAux]
      rw [List.take_of_length_le hlen, List.drop_eq_nil_of_le hlen, chunkAux_nil]

lemma chunkString_join (s : List Char) (n : Nat) : (chunkString s n).flatten = s :=
  chunkAux_join _ _ _ le_rfl

lemma chunkString_ne_nil (s : List Char) (h : s ≠ []) (n : Nat) :
    chunkString s n ≠ [] := by
  cases s with
  | nil => exact absurd rfl h
  | cons c rest => simp [chunkString, chunkAux]

lemma markAux_length (m : List Char) (total : Nat) :
    ∀ l k, (markAux m total k l).length = l.length := by
  intro l
  induction l with
  | nil => intro k; rfl
  | cons c rest ih => intro k; simp [markAux, ih]

lemma markAux_mem (m : List Char) (total : Nat) :
    ∀ l k c, c ∈ markAux m total k l →
      ∃ c0 ∈ l, c = c0 ++ m ∨ c = m ++ c0 ∨ c = m ++ c0 ++ m := by
  intro l
  induction l with
  | nil => intro k c hc; simp [markAux] at hc
  | cons a rest ih =>
    intro k c hc
    simp only [markAux, List.mem_cons] at hc
    rcases hc with hc | hc
    · refine ⟨a, List.mem_cons_self _ _, ?_⟩
      split_ifs at hc with h0 h1
      · exact Or.inl hc
      · exact Or.inr (Or.inl hc)
      · exact Or.inr (Or.inr hc)
    · obtain ⟨c0, hc0, hform⟩ := ih _ _ hc
      exact ⟨c0, List.mem_cons_of_mem _ hc0, hform⟩

lemma strip_mark (m : List Char) (total : Nat) :
    ∀ l k, stripAux m total k (markAux m total k l) = l := by
  intro l
  induction l with
  | nil => intro k; rfl
  | cons c rest ih =>
    intro k
    simp only [markAux, stripAux, ih (k + 1)]
    split_ifs with h0 h1
    · rw [dropRight, List.length_append, Nat.add_sub_cancel, List.take_left]
    · rw [List.drop_left]
    · rw [List.append_assoc, List.drop_left, dropRight, List.length_append,
        Nat.add_sub_cancel, List.take_left]

/- ### Transport model -/

instance {ε α : Type} [DecidableEq ε] [DecidableEq α] : DecidableEq (Except ε α) := fun
  | .error a, .error b =>
    if h : a = b then .isTrue (h ▸ rfl) else .isFalse (fun hh => h (Except.error.inj hh))
  | .error _, .ok _ => .isFalse Except.noConfusion
  | .ok _, .error _ => .isFalse Except.noConfusion
  | .ok a, .ok b =>
    if h : a = b then .isTrue (h ▸ rfl) else .isFalse (fun hh => h (Except.ok.inj hh))

/-- Response object returned by `TwitterAPI.request`: the fields the source
reads (`status_code`, `response.content`, and `json()['media_id']` for an
upload response). -/
structure ApiResponse where
  status_code : Nat
  content : List Char
  media_id : Nat
deriving DecidableEq

/-- The three request shapes the source issues: `statuses/update` with
`status`/`user_id` (line 94), `media/upload` with the image bytes (line 123),
and `statuses/update` with `status`/`media_ids`/`user_id` (line 134). -/
inductive ApiRequest where
  | statusUpdate (status : List Char) (user_id : List (List Char))
  | mediaUpload (media : List Char)
  | statusUpdateWithMedia (status : List Char) (media_ids : Nat) (user_id : List (List Char))
deriving DecidableEq

/-- Transport oracle: each request either raises an exception
(`Except.error` with its text) or returns a response object. -/
abbrev Api := ApiRequest → Except (List Char) ApiResponse

/-- Log records the module emits: `logger.exception(e)` after a caught
transport exception, and the three `logger.error` messages. -/
inductive LogEvent where
  | exceptionLogged (e : List Char)
  | tweetError (msg content : List Char)
  | uploadError (content : List Char)
  | plotPostError (content : List Char)
deriving DecidableEq

/-- Outcome of one `_tweet_status_msg` call: the Python return value
(`None` when an exception was swallowed, else the response), the request
trace and the log trace. -/
structure MsgOutcome where
  result : Option ApiResponse
  calls : List ApiRequest
  logs : List LogEvent
deriving DecidableEq

/-- `_tweet_status_msg` (lines 81-104): try the post, log and return `None`
on exception, log an error on a non-200 status, return the response. -/
def tweetStatusMsg (api : Api) (uids : List (List Char)) (msg : List Char) : MsgOutcome :=
  match api (.statusUpdate msg uids) with
  | .error e => ⟨none, [.statusUpdate msg uids], [.exceptionLogged e]⟩
  | .ok r =>
    if r.status_code ≠ 200 then ⟨some r, [.statusUpdate msg uids], [.tweetError msg r.content]⟩
    else ⟨some r, [.statusUpdate msg uids], []⟩

/-- Outcome of `tweet_status`: the returned `results` list plus the request
and log traces accumulated over the per-chunk calls. -/
structure StatusOutcome where
  results : List (Option ApiResponse)
  calls : List ApiRequest
  logs : List LogEvent
deriving DecidableEq

/-- The list comprehension of line 78, posting each message in order and
accumulating every effect. -/
def postChunks (api : Api) (uids : List (List Char)) : List (List Char) → StatusOutcome
  | [] => ⟨[], [], []⟩
  | msg :: rest =>
    let o := tweetStatusMsg api uids msg
    let r := postChunks api uids rest
    ⟨o.result :: r.results, o.calls ++ r.calls, o.logs ++ r.logs⟩

/-- `tweet_status` (lines 54-79): chunk, add continuation strings, then post
the chunks in flipped (`[::-1]`) order. -/
def tweetStatus (api : Api) (uids : List (List Char)) (s : List Char) : StatusOutcome :=
  postChunks api uids (tweetStatusChunks s).reverse

/-- Request/log trace of a call that returns nothing of interest
(`tweet_image` returns `None` on every path). -/
structure Trace where
  calls : List ApiRequest
  logs : List LogEvent
deriving DecidableEq

/-- `tweet_image` (lines 106-143): upload the image bytes; on a caught
exception log and stop; on a non-200 status log and stop; otherwise post a
status referencing `media_id`, again logging a caught exception or a non-200
status. -/
def tweetImage (api : Api) (uids : List (List Char)) (dat header : List Char) : Trace :=
  match api (.mediaUpload dat) with
  | .error e => ⟨[.mediaUpload dat], [.exceptionLogged e]⟩
  | .ok r =>
    if r.status_code ≠ 200 then ⟨[.mediaUpload dat], [.uploadError r.content]⟩
    else
      match api (.statusUpdateWithMedia header r.media_id uids) with
      | .error e =>
        ⟨[.mediaUpload dat, .statusUpdateWithMedia header r.media_id uids], [.exceptionLogged e]⟩
      | .ok r2 =>
        if r2.status_code ≠ 200 then
          ⟨[.mediaUpload dat, .statusUpdateWithMedia header r.media_id uids],
            [.plotPostError r2.content]⟩
        else ⟨[.mediaUpload dat, .statusUpdateWithMedia header r.media_id uids], []⟩

/- ### Lemmas about posting -/

lemma tweetStatusMsg_calls (api : Api) (uids : List (List Char)) (msg : List Char) :
    (tweetStatusMsg api uids msg).calls = [.statusUpdate msg uids] := by
  cases h : api (.statusUpdate msg uids) with
  | error e => simp [tweetStatusMsg, h]
  | ok r =>
    simp only [tweetStatusMsg, h]
    split_ifs <;> rfl

lemma postChunks_calls (api : Api) (uids : List (List Char)) :
    ∀ l, (postChunks api uids l).calls = l.map (fun c => ApiRequest.statusUpdate c uids) := by
  intro l
  induction l with
  | nil => rfl
  | cons msg rest ih => simp [postChunks, tweetStatusMsg_calls, ih]

lemma postChunks_results (api : Api) (uids : List (List Char)) :
    ∀ l, (postChunks api uids l).results
      = l.map (fun c => (tweetStatusMsg api uids c).result) := by
  intro l
  induction l with
  | nil => rfl
  | cons msg rest ih => simp [postChunks, ih]

lemma postChunks_logs_mem (api : Api) (uids : List (List Char)) :
    ∀ (l : List (List Char)) (i : Nat) (m : List Char) (x : LogEvent),
      l[i]? = some m → x ∈ (tweetStatusMsg api uids m).logs →
      x ∈ (postChunks api uids l).logs := by
  intro l
  induction l with
  | nil => intro i m x hm; simp at hm
  | cons a rest ih =>
    intro i m x hm hx
    cases i with
    | zero =>
      simp only [List.getElem?_cons_zero, Option.some.injEq] at hm
      subst hm
      exact List.mem_append_left _ hx
    | succ i =>
      simp only [List.getElem?_cons_succ] at hm
      exact List.mem_append_right _ (ih i m x hm hx)

/- ### Monitor model -/

/-- One monitored channel: the three parallel append-only records the source
reads (`epoch_record`, `time_record` in seconds, `val_record`).  Values are
modelled as rationals. -/
structure MChannel where
  epoch_record : List Nat
  time_record : List Nat
  val_record : List Rat
deriving DecidableEq

/-- The monitor's `channels` dictionary, as an association list. -/
structure MMonitor where
  channels : List (List Char × MChannel)
deriving DecidableEq

/-- Python dict lookup `monitor.channels[name]` (`none` models the raised
`KeyError`). -/
def lookupChannel (mon : MMonitor) (name : List Char) : Option MChannel :=
  (mon.channels.find? (fun p => p.1 == name)).map (fun p => p.2)

/-- Exceptions the `tweet_channel` path can raise: `KeyError` from the dict
lookup, `IndexError` from `[-1]` on an empty record, `ZeroDivisionError`
from `% 0`, and `ValueError` from `min`/`argmin` of an empty sequence. -/
inductive PyError where
  | keyError (k : List Char)
  | indexError
  | zeroDivisionError
  | valueError
deriving DecidableEq

/-- One entry of `channels_info`: `{name, epoch_frequency, type}`. -/
structure ChannelInfo where
  name : List Char
  epoch_frequency : Nat
  type : List Char
deriving DecidableEq

/-- Python `min(val_record)` (`ValueError` on an empty sequence, first
minimal element otherwise). -/
def pyMin : List Rat → Except PyError Rat
  | [] => .error .valueError
  | x :: rest => .ok (rest.foldl (fun b y => if y < b then y else b) x)

/-- Index bookkeeping for `numpy.argmin`: first index of the minimum. -/
def argminGo : List Rat → Rat → Nat → Nat → Nat
  | [], _, bi, _ => bi
  | y :: ys, best, bi, i =>
    if y < best then argminGo ys y i (i + 1) else argminGo ys best bi (i + 1)

/-- `numpy.argmin(val_record)`: first index attaining the minimum
(`ValueError` on an empty sequence). -/
def pyArgmin : List Rat → Except PyError Nat
  | [] => .error .valueError
  | x :: rest => .ok (argminGo rest x 0 1)

/-- Zero-padded two-digit rendering used inside `str(datetime.timedelta)`. -/
def pad2 (n : Nat) : List Char :=
  (if n < 10 then ['0'] else []) ++ (Nat.repr n).toList

/-- `str(datetime.timedelta(seconds=t))` for whole seconds `t`:
`[D day(s), ]H:MM:SS` with unpadded hours. -/
def formatTimedelta (t : Nat) : List Char :=
  let days := t / 86400
  let h := (t % 86400) / 3600
  let m := (t % 3600) / 60
  let s := t % 60
  (if days = 0 then []
   else (Nat.repr days).toList ++ (if days = 1 then " day, ".toList else " days, ".toList))
    ++ (Nat.repr h).toList ++ [':'] ++ pad2 m ++ [':'] ++ pad2 s

/-- Python `'%f'` fixed-point rendering with six decimal places, on the
rational model of the float value (exact for the values the claims use; the
rounding of values needing more than six decimal places is not modelled). -/
def formatFixed6 (q : Rat) : List Char :=
  let n := q.num.natAbs * 1000000 / q.den
  let ip := n / 1000000
  let fp := n % 1000000
  let fps := Nat.repr fp
  (if q.num < 0 then ['-'] else []) ++ (Nat.repr ip).toList ++ ['.']
    ++ List.replicate (6 - fps.length) '0' ++ fps.toList

/-- The `status_msg` format string of lines 201-213:
`host\njob\nE:<epoch>, T:<time>\n<name>: <val>\nmin: <min> [<argmin>]`. -/
def composeStatus (host job name : List Char) (epoch time : Nat)
    (val mn : Rat) (mnIdx : Nat) : List Char :=
  host ++ "\n".toList ++ job ++ "\n".toList
    ++ "E:".toList ++ (Nat.repr epoch).toList ++ ", T:".toList ++ formatTimedelta time
    ++ "\n".toList ++ name ++ ": ".toList ++ formatFixed6 val
    ++ "\n".toList ++ "min: ".toList ++ formatFixed6 mn
    ++ " [".toList ++ (Nat.repr mnIdx).toList ++ "]".toList

/-- `tweet_channel` (lines 181-239).  The dict lookup, the `[-1]` accesses,
`% 0`, and `argmin` of an empty slice raise; no exception in this method is
caught, so a raise is surfaced as `Except.error`.  Every raise happens before
any transport call, so an error carries no partial trace.  The plot rendering
(matplotlib) is an external collaborator, abstracted as `render`; the plot
branch fires `tweet_image` with the rendered bytes and an empty caption. -/
def tweetChannel (api : Api) (render : List Char → MChannel → List Char)
    (host job : List Char) (uids : List (List Char))
    (mon : MMonitor) (ci : ChannelInfo) : Except PyError Trace :=
  match lookupChannel mon ci.name with
  | none => .error (.keyError ci.name)
  | some ch =>
    match ch.epoch_record.getLast? with
    | none => .error .indexError
    | some epoch =>
      if ci.epoch_frequency = 0 then .error .zeroDivisionError
      else if epoch % ci.epoch_frequency = 0 then
        match ch.time_record.getLast? with
        | none => .error .indexError
        | some t =>
          match ch.val_record.getLast? with
          | none => .error .indexError
          | some v =>
            match pyMin ch.val_record, pyArgmin ch.val_record with
            | .ok mn, .ok mnIdx =>
              let msg := composeStatus host job ci.name epoch t v mn mnIdx
              if ci.type = "text".toList then
                let o := tweetStatus api uids msg
                .ok ⟨o.calls, o.logs⟩
              else if ci.type = "plot".toList then
                if ch.val_record.length ≤ 1 then .error .valueError
                else .ok (tweetImage api uids (render ci.name ch) [])
              else .ok ⟨[], []⟩
            | _, _ => .error .valueError
      else .ok ⟨[], []⟩

/-- Effects of one `on_monitor` run: accumulated calls and logs, and the
first uncaught exception (if any), which aborts the subscription loop. -/
structure RunOutcome where
  calls : List ApiRequest
  logs : List LogEvent
  err : Option PyError
deriving DecidableEq

/-- `on_monitor` (lines 258-271): `for ch_info in self.channels_info:
self.tweet_channel(monitor, ch_info)` — an exception raised by one
subscription propagates and skips all later subscriptions. -/
def onMonitor (api : Api) (render : List Char → MChannel → List Char)
    (host job : List Char) (uids : List (List Char)) (mon : MMonitor) :
    List ChannelInfo → RunOutcome
  | [] => ⟨[], [], none⟩
  | ci :: rest =>
    match tweetChannel api render host job uids mon ci with
    | .error e => ⟨[], [], some e⟩
    | .ok t =>
      let r := onMonitor api render host job uids mon rest
      ⟨t.calls ++ r.calls, t.logs ++ r.logs, r.err⟩

/- ### Claim theorems -/

set_option maxRecDepth 10000

lemma continuation_len : continuationString.length = 7 := rfl

lemma chunkString_mem_126 (s c : List Char)
    (hc : c ∈ chunkString s (STATUS_MSG_MAX_LEN - 2 * continuationString.length)) :
    c.length ≤ 126 := by
  have h := chunkAux_mem_len _ _ _ _ hc
  simpa using h

/-- C2: every chunk produced by the splitting step of `tweet_status`
(split at 126 plus continuation-marker attachment), measured after marker
attachment, has length at most `STATUS_MSG_MAX_LEN` = 140. -/
theorem tweetStatus_chunk_length_le (s c : List Char) (hc : c ∈ tweetStatusChunks s) :
    c.length ≤ STATUS_MSG_MAX_LEN := by
  simp only [tweetStatusChunks] at hc
  split_ifs at hc with h1
  · obtain ⟨c0, hc0, hform⟩ := markAux_mem _ _ _ _ _ hc
    have h0 : c0.length ≤ 126 := chunkString_mem_126 _ _ hc0
    have hm : continuationString.length = 7 := continuation_len
    have h140 : STATUS_MSG_MAX_LEN = 140 := rfl
    rcases hform with h | h | h <;> subst h <;> simp [List.length_append, hm, h140] <;> omega
  · have := chunkString_mem_126 _ _ hc
    have h140 : STATUS_MSG_MAX_LEN = 140 := rfl
    omega

theorem tweetStatus_chunk_length_le_witness :
    (List.replicate 126 'a' ++ continuationString) ∈ tweetStatusChunks (List.replicate 127 'a')
    ∧ (List.replicate 126 'a' ++ continuationString).length ≤ STATUS_MSG_MAX_LEN :=
  ⟨by decide,
    tweetStatus_chunk_length_le (List.replicate 127 'a')
      (List.replicate 126 'a' ++ continuationString) (by decide)⟩

/-- C3: stripping the continuation markers from the chunks produced by the
splitter and concatenating them in logical order reproduces the input exactly. -/
theorem tweetStatus_chunks_strip_concat (s : List Char) :
    (stripStatus (tweetStatusChunks s)).flatten = s := by
  by_cases h1 :
    1 < (chunkString s (STATUS_MSG_MAX_LEN - 2 * continuationString.length)).length
  · simp only [tweetStatusChunks, if_pos h1, stripStatus, markAux_length, if_pos h1,
      strip_mark, chunkString_join]
  · simp only [tweetStatusChunks, if_neg h1, stripStatus, if_neg h1, chunkString_join]

/-- C4 counterexample: a 127-character message has length at most 140, yet the
splitter returns two chunks (with markers), not the single unmarked chunk the
claim asserts — `tweet_status` splits at 126, not at 140. -/
theorem tweetStatusChunks_single_cex :
    (List.replicate 127 'a').length ≤ STATUS_MSG_MAX_LEN
    ∧ tweetStatusChunks (List.replicate 127 'a') ≠ [List.replicate 127 'a'] := by
  exact ⟨by decide, by decide⟩

/-- C4 (amended): for every nonempty string of length at most
126 = maxLen − 2·len(marker), the splitter returns exactly one chunk, equal
to the input, with no continuation marker attached. -/
theorem tweetStatusChunks_small_single (s : List Char) (h0 : s ≠ [])
    (h1 : s.length ≤ STATUS_MSG_MAX_LEN - 2 * continuationString.length) :
    tweetStatusChunks s = [s] := by
  have h126 : STATUS_MSG_MAX_LEN - 2 * continuationString.length = 126 := rfl
  have hcs : chunkString s (STATUS_MSG_MAX_LEN - 2 * continuationString.length) = [s] := by
    unfold chunkString
    refine chunkAux_small _ _ _ h0 ?_ le_rfl
    rw [h126] at h1 ⊢
    omega
  simp [tweetStatusChunks, hcs]

theorem tweetStatusChunks_small_single_witness :
    (['a'] : List Char) ≠ []
    ∧ (['a'] : List Char).length ≤ STATUS_MSG_MAX_LEN - 2 * continuationString.length
    ∧ tweetStatusChunks ['a'] = [['a']] :=
  ⟨by decide, by decide, tweetStatusChunks_small_single _ (by decide) (by decide)⟩

/-- C10: for the empty input string, `tweet_status` produces zero chunks,
performs zero transport posts, and returns an empty result list (not a
one-element list containing the empty string). -/
theorem tweetStatus_empty (api : Api) (uids : List (List Char)) :
    tweetStatusChunks [] = ([] : List (List Char))
    ∧ tweetStatus api uids [] = ⟨[], [], []⟩ :=
  ⟨rfl, rfl⟩

lemma tweetStatusMsg_of_raise (api : Api) (uids : List (List Char)) (msg e : List Char)
    (h : api (.statusUpdate msg uids) = .error e) :
    (tweetStatusMsg api uids msg).result = none
    ∧ (tweetStatusMsg api uids msg).logs = [.exceptionLogged e] := by
  simp [tweetStatusMsg, h]

lemma tweetStatusMsg_of_badStatus (api : Api) (uids : List (List Char)) (msg : List Char)
    (r : ApiResponse) (h : api (.statusUpdate msg uids) = .ok r) (hs : r.status_code ≠ 200) :
    (tweetStatusMsg api uids msg).result = some r
    ∧ (tweetStatusMsg api uids msg).logs = [.tweetError msg r.content] := by
  simp [tweetStatusMsg, h, hs]

/-- C5: `tweet_status` posts exactly one message per chunk, in strictly
reversed chunk order (last logical chunk first), and returns one result per
chunk in that same reversed order. -/
theorem tweetStatus_reversed (api : Api) (uids : List (List Char)) (s : List Char) :
    (tweetStatus api uids s).calls
      = ((tweetStatusChunks s).reverse).map (fun c => ApiRequest.statusUpdate c uids)
    ∧ (tweetStatus api uids s).results
      = ((tweetStatusChunks s).reverse).map (fun c => (tweetStatusMsg api uids c).result)
    ∧ (tweetStatus api uids s).results.length = (tweetStatusChunks s).length := by
  refine ⟨postChunks_calls _ _ _, postChunks_results _ _ _, ?_⟩
  rw [tweetStatus, postChunks_results, List.length_map, List.length_reverse]

/-- C6: during `tweet_status`, a transport exception on one chunk does not
prevent the attempt to post every remaining chunk — the request trace always
covers every chunk; the exception is swallowed (result entry `none`) and
logged, and a non-200 response is likewise recorded in the results and
logged, neither being raised to the caller. -/
theorem tweetStatus_no_early_abort (api : Api) (uids : List (List Char)) (s : List Char)
    (i : Nat) (m e : List Char)
    (hm : ((tweetStatusChunks s).reverse)[i]? = some m)
    (he : api (.statusUpdate m uids) = .error e) :
    (tweetStatus api uids s).calls
      = ((tweetStatusChunks s).reverse).map (fun c => ApiRequest.statusUpdate c uids)
    ∧ (tweetStatus api uids s).results[i]? = some none
    ∧ LogEvent.exceptionLogged e ∈ (tweetStatus api uids s).logs
    ∧ (∀ (j : Nat) (c : List Char) (r : ApiResponse),
        ((tweetStatusChunks s).reverse)[j]? = some c →
        api (.statusUpdate c uids) = .ok r → r.status_code ≠ 200 →
        (tweetStatus api uids s).results[j]? = some (some r)
        ∧ LogEvent.tweetError c r.content ∈ (tweetStatus api uids s).logs) := by
  refine ⟨postChunks_calls _ _ _, ?_, ?_, ?_⟩
  · rw [tweetStatus, postChunks_results, List.getElem?_map, hm]
    simp [(tweetStatusMsg_of_raise api uids m e he).1]
  · exact postChunks_logs_mem _ _ _ _ _ _ hm
      (by rw [(tweetStatusMsg_of_raise api uids m e he).2]; exact List.mem_singleton_self _)
  · intro j c r hj hok hs
    constructor
    · rw [tweetStatus, postChunks_results, List.getElem?_map, hj]
      simp [(tweetStatusMsg_of_badStatus api uids c r hok hs).1]
    · exact postChunks_logs_mem _ _ _ _ _ _ hj
        (by rw [(tweetStatusMsg_of_badStatus api uids c r hok hs).2]
            exact List.mem_singleton_self _)

/-- Always-raising transport used to witness the failure-isolation theorems. -/
def apiRaise : Api := fun _ => .error "connection reset".toList

theorem tweetStatus_no_early_abort_witness :
    ((tweetStatusChunks (List.replicate 127 'a')).reverse)[0]?
        = some (continuationString ++ ['a'])
    ∧ apiRaise (.statusUpdate (continuationString ++ ['a']) []) = .error "connection reset".toList
    ∧ (tweetStatus apiRaise [] (List.replicate 127 'a')).results[0]? = some none :=
  ⟨by decide, rfl,
    (tweetStatus_no_early_abort apiRaise [] (List.replicate 127 'a') 0
      (continuationString ++ ['a']) "connection reset".toList (by decide) rfl).2.1⟩

/-- C7: in `tweet_image`, the follow-up text post referencing the media id is
attempted exactly when the upload returned status 200; a raised upload
exception or a non-200 upload status is logged instead. -/
theorem tweetImage_upload_gate (api : Api) (uids : List (List Char)) (dat header : List Char) :
    ((∃ st mid u, ApiRequest.statusUpdateWithMedia st mid u ∈ (tweetImage api uids dat header).calls)
      ↔ (∃ r, api (.mediaUpload dat) = .ok r ∧ r.status_code = 200))
    ∧ (∀ e, api (.mediaUpload dat) = .error e →
        (tweetImage api uids dat header).logs = [LogEvent.exceptionLogged e])
    ∧ (∀ r, api (.mediaUpload dat) = .ok r → r.status_code ≠ 200 →
        (tweetImage api uids dat header).logs = [LogEvent.uploadError r.content]) := by
  cases hup : api (.mediaUpload dat) with
  | error e0 =>
    refine ⟨⟨?_, ?_⟩, ?_, ?_⟩
    · rintro ⟨st, mid, u, hmem⟩
      simp [tweetImage, hup] at hmem
    · rintro ⟨r, hr, -⟩
      exact Except.noConfusion hr
    · intro e he
      injection he with h1
      subst h1
      simp [tweetImage, hup]
    · intro r hr
      exact Except.noConfusion hr
  | ok r0 =>
    by_cases hs : r0.status_code = 200
    · refine ⟨⟨?_, ?_⟩, ?_, ?_⟩
      · intro _
        exact ⟨r0, rfl, hs⟩
      · intro _
        refine ⟨header, r0.media_id, uids, ?_⟩
        cases hpost : api (.statusUpdateWithMedia header r0.media_id uids) with
        | error e => simp [tweetImage, hup, hs, hpost]
        | ok r2 =>
          by_cases hs2 : r2.status_code = 200 <;> simp [tweetImage, hup, hs, hpost, hs2]
      · intro e he
        exact Except.noConfusion he
      · intro r hr hne
        injection hr with h1
        subst h1
        exact absurd hs hne
    · refine ⟨⟨?_, ?_⟩, ?_, ?_⟩
      · rintro ⟨st, mid, u, hmem⟩
        simp [tweetImage, hup, hs] at hmem
      · rintro ⟨r, hr, hr200⟩
        injection hr with h1
        subst h1
        exact absurd hr200 hs
      · intro e he
        exact Except.noConfusion he
      · intro r hr hne
        injection hr with h1
        subst h1
        simp [tweetImage, hup, hs]

/-- Transport whose upload returns a 403 response, to witness the upload gate. -/
def apiUpload403 : Api := fun _ => .ok ⟨403, "forbidden".toList, 9⟩

theorem tweetImage_upload_gate_witness :
    (tweetImage apiUpload403 [] "img".toList []).logs
      = [LogEvent.uploadError "forbidden".toList] :=
  (tweetImage_upload_gate apiUpload403 [] "img".toList []).2.2 ⟨403, "forbidden".toList, 9⟩
    rfl (by decide)

/- ### Monitor-layer lemmas -/

lemma composeStatus_ne_nil (host job name : List Char) (epoch time : Nat)
    (val mn : Rat) (mnIdx : Nat) :
    composeStatus host job name epoch time val mn mnIdx ≠ [] := by
  intro h
  simp only [composeStatus, List.append_eq_nil] at h
  exact absurd h.2 (by decide)

lemma tweetStatusChunks_ne_nil (s : List Char) (h : s ≠ []) :
    tweetStatusChunks s ≠ [] := by
  simp only [tweetStatusChunks]
  split_ifs with h1
  · intro hc
    have hlen := markAux_length continuationString
      (chunkString s (STATUS_MSG_MAX_LEN - 2 * continuationString.length)).length
      (chunkString s (STATUS_MSG_MAX_LEN - 2 * continuationString.length)) 0
    rw [hc] at hlen
    exact chunkString_ne_nil s h _ (List.length_eq_zero.mp hlen.symm)
  · exact chunkString_ne_nil s h _

lemma tweetStatus_calls_ne_nil (api : Api) (uids : List (List Char)) (s : List Char)
    (h : s ≠ []) : (tweetStatus api uids s).calls ≠ [] := by
  intro hc
  rw [tweetStatus, postChunks_calls, List.map_eq_nil_iff, List.reverse_eq_nil_iff] at hc
  exact tweetStatusChunks_ne_nil s h hc

lemma tweetImage_calls_ne_nil (api : Api) (uids : List (List Char)) (dat header : List Char) :
    (tweetImage api uids dat header).calls ≠ [] := by
  cases hup : api (.mediaUpload dat) with
  | error e => simp [tweetImage, hup]
  | ok r =>
    by_cases hs : r.status_code = 200
    · cases hpost : api (.statusUpdateWithMedia header r.media_id uids) with
      | error e => simp [tweetImage, hup, hs, hpost]
      | ok r2 =>
        by_cases hs2 : r2.status_code = 200 <;> simp [tweetImage, hup, hs, hpost, hs2]
    · simp [tweetImage, hup, hs]

set_option maxHeartbeats 2000000 in
/-- C8 (amended): a subscription's delivery action fires exactly when the
channel's last recorded epoch is divisible by the subscription's cadence
(in particular at epoch 0, since 0 mod n = 0), and at a non-divisible epoch
zero transport calls are made — provided the action itself does not raise:
unconditionally for a text subscription, and for a plot subscription only
when the channel history holds at least two values, because with a single
record the gate passes but `numpy.argmin(ch.val_record[1:])` raises
`ValueError` on the empty slice and no delivery call is made. -/
theorem tweetChannel_cadence (api : Api) (render : List Char → MChannel → List Char)
    (host job : List Char) (uids : List (List Char)) (mon : MMonitor) (ci : ChannelInfo)
    (ch : MChannel) (e : Nat)
    (hlook : lookupChannel mon ci.name = some ch)
    (hfreq : 0 < ci.epoch_frequency)
    (hep : ch.epoch_record.getLast? = some e)
    (ht : ch.time_record ≠ [])
    (hv : ch.val_record ≠ [])
    (hkind : ci.type = "text".toList ∨ (ci.type = "plot".toList ∧ 2 ≤ ch.val_record.length)) :
    ∃ t : Trace, tweetChannel api render host job uids mon ci = Except.ok t
      ∧ (t.calls ≠ [] ↔ e % ci.epoch_frequency = 0) := by
  have hfne : ¬ ci.epoch_frequency = 0 := Nat.pos_iff_ne_zero.mp hfreq
  simp only [tweetChannel, hlook, hep]
  rw [if_neg hfne]
  by_cases hg : e % ci.epoch_frequency = 0
  · rw [if_pos hg]
    obtain ⟨tl, htl⟩ : ∃ a, ch.time_record.getLast? = some a := by
      cases hx : ch.time_record.getLast? with
      | none => exact absurd (List.getLast?_eq_none_iff.mp hx) ht
      | some a => exact ⟨a, rfl⟩
    obtain ⟨vl, hvl⟩ : ∃ a, ch.val_record.getLast? = some a := by
      cases hx : ch.val_record.getLast? with
      | none => exact absurd (List.getLast?_eq_none_iff.mp hx) hv
      | some a => exact ⟨a, rfl⟩
    rcases hval : ch.val_record with - | ⟨x, xs⟩
    · exact absurd hval hv
    · rw [hval] at hvl
      simp only [htl, hvl, hval, pyMin, pyArgmin]
      rcases hkind with htext | ⟨hplot, hlen2⟩
      · rw [if_pos htext]
        refine ⟨_, rfl, iff_of_true ?_ hg⟩
        apply tweetStatus_calls_ne_nil
        apply composeStatus_ne_nil
      · have hnotext : ¬ ci.type = "text".toList := by rw [hplot]; decide
        have hlen1 : ¬ (ch.val_record.length ≤ 1) := by rw [hval]; rw [hval] at hlen2; omega
        rw [if_neg hnotext, if_pos (by rw [hplot]), if_neg (by rw [← hval]; exact hlen1)]
        refine ⟨_, rfl, iff_of_true ?_ hg⟩
        apply tweetImage_calls_ne_nil
  · rw [if_neg hg]
    exact ⟨⟨[], []⟩, rfl, iff_of_false (by simp) hg⟩

/-- Always-succeeding transport used in the concrete monitor scenarios. -/
def apiOk : Api := fun _ => .ok ⟨200, [], 1⟩

/-- Trivial stand-in for the matplotlib rendering collaborator. -/
def renderNil : List Char → MChannel → List Char := fun _ _ => []

/-- Monitor of the C9 scenario: channel `c` with epochs 0..3,
times 0,0,0,60 and values 5,4,3,2. -/
def mon9 : MMonitor := ⟨[("c".toList, ⟨[0, 1, 2, 3], [0, 0, 0, 60], [5, 4, 3, 2]⟩)]⟩

/-- Subscription of the C9 scenario: channel `c`, cadence 3, kind text. -/
def ci9 : ChannelInfo := ⟨"c".toList, 3, "text".toList⟩

set_option maxHeartbeats 2000000 in
theorem tweetChannel_cadence_witness :
    ∃ t : Trace, tweetChannel apiOk renderNil "h".toList "j".toList [] mon9 ci9 = Except.ok t
      ∧ (t.calls ≠ [] ↔ 3 % ci9.epoch_frequency = 0) :=
  tweetChannel_cadence apiOk renderNil "h".toList "j".toList [] mon9 ci9
    ⟨[0, 1, 2, 3], [0, 0, 0, 60], [5, 4, 3, 2]⟩ 3 (by decide) (by decide) (by decide)
    (by decide) (by decide) (Or.inl rfl)

/-- Monitor with one plot channel `p` holding a single record, the state of a
channel at its first epoch-0 report. -/
def monP : MMonitor := ⟨[("p".toList, ⟨[0], [0], [1]⟩)]⟩

/-- Plot subscription with cadence 5 on channel `p`. -/
def ciP : ChannelInfo := ⟨"p".toList, 5, "plot".toList⟩

/-- C8 counterexample: at epoch 0 a plot subscription with a single-record
channel passes the cadence gate (0 mod 5 = 0) yet performs zero delivery
calls — the plot branch raises `ValueError` (line 222, `argmin` of the empty
`val_record[1:]` slice), which `on_monitor` does not catch — so the original
claim that at epoch 0 every subscription fires regardless of cadence is
false on the code. -/
theorem tweetChannel_epoch0_plot_cex :
    (0 : Nat) % ciP.epoch_frequency = 0
    ∧ tweetChannel apiOk renderNil "h".toList "j".toList [] monP ciP
        = Except.error PyError.valueError
    ∧ onMonitor apiOk renderNil "h".toList "j".toList [] monP [ciP]
        = ⟨[], [], some PyError.valueError⟩ :=
  ⟨rfl, by decide, by decide⟩

/-- The status message composed in the C9 scenario at epoch 3. -/
def msg9 : List Char := "h\nj\nE:3, T:0:01:00\nc: 2.000000\nmin: 2.000000 [3]".toList

/-- C9: in the scenario with cadence 3, kind text, epochs 0..3 and values
5,4,3,2, the epoch-3 report posts exactly one message; that message contains
`E:3` and reports the history minimum, fixed-point formatted, with its argmin
index: `min: 2.000000 [3]`.  (The model is a function, so the message is
deterministic in its inputs.) -/
theorem tweetChannel_scenario :
    tweetChannel apiOk renderNil "h".toList "j".toList [] mon9 ci9
      = Except.ok ⟨[ApiRequest.statusUpdate msg9 []], []⟩
    ∧ "E:3".toList <:+: msg9
    ∧ "min: 2.000000 [3]".toList <:+: msg9 :=
  ⟨by decide, by decide, by decide⟩

/-- Monitor with a single known channel `a`, for the unknown-channel scenario. -/
def monA : MMonitor := ⟨[("a".toList, ⟨[0], [0], [1]⟩)]⟩

/-- Subscription naming the unknown channel `b`. -/
def infoB : ChannelInfo := ⟨"b".toList, 1, "text".toList⟩

/-- Subscription naming the known channel `a`. -/
def infoA : ChannelInfo := ⟨"a".toList, 1, "text".toList⟩

/-- C1 counterexample: with a first subscription naming the unknown channel
`b` and a second naming the known channel `a`, `on_monitor` ends with an
uncaught `KeyError` (the exception propagates to the training loop), logs
nothing, and performs zero transport calls — even though the second
subscription alone would have posted.  The claimed log-and-continue
behaviour does not exist in the code. -/
theorem onMonitor_unknown_channel_cex :
    onMonitor apiOk renderNil "h".toList "j".toList [] monA [infoB, infoA]
      = ⟨[], [], some (PyError.keyError "b".toList)⟩
    ∧ (onMonitor apiOk renderNil "h".toList "j".toList [] monA [infoA]).calls ≠ [] :=
  ⟨by decide, by decide⟩

/-- C1 (amended): a subscription naming a channel unknown to the monitor
makes `tweet_channel` raise `KeyError`; `on_monitor` does not catch it, so
nothing is logged by this subsystem, no remaining subscription is processed,
and the exception propagates into the enclosing training loop. -/
theorem onMonitor_unknown_channel_propagates (api : Api)
    (render : List Char → MChannel → List Char) (host job : List Char)
    (uids : List (List Char)) (mon : MMonitor) (ci : ChannelInfo) (rest : List ChannelInfo)
    (h : lookupChannel mon ci.name = none) :
    onMonitor api render host job uids mon (ci :: rest)
      = ⟨[], [], some (PyError.keyError ci.name)⟩ := by
  simp [onMonitor, tweetChannel, h]

theorem onMonitor_unknown_channel_propagates_witness :
    lookupChannel monA infoB.name = none
    ∧ onMonitor apiOk renderNil "h".toList "j".toList [] monA [infoB]
      = ⟨[], [], some (PyError.keyError infoB.name)⟩ :=
  ⟨by decide, onMonitor_unknown_channel_propagates apiOk renderNil "h".toList "j".toList []
    monA infoB [] (by decide)⟩
